import Mathlib

/-
Verification of the langgraph-rs workflow-graph contract.

Part 1 embeds the cross-implementation equivalence validator
(src/tests/validation/compare_outputs.py) over a model of Python/JSON
values.  Python numbers (int and float) are modelled as exact rationals:
every numeric literal appearing in the claims (1e-6, 1e-9, 1.0) and every
arithmetic step the claims exercise is exact at these magnitudes, and
Python `==` identifies 1 and 1.0, so the int/float distinction is
irrelevant to the comparison logic being verified.

Part 2 embeds the three test-fixture workflows
(src/tests/fixtures/{linear,loop,multi_path}_workflow.py) over an
executor modelled from the specification (the langgraph engine itself is
not part of the source tree).
-/

namespace LangGraphRS

/-- Model of a Python/JSON value as produced by `graph.invoke` or
`json.loads`: number (int or float, modelled as an exact rational),
boolean, string, list, or string-keyed dict (kept as an ordered
association list, as Python dicts are insertion-ordered). -/
inductive PyVal where
  | num (q : ℚ)
  | bool (b : Bool)
  | str (s : String)
  | list (xs : List PyVal)
  | dict (entries : List (String × PyVal))
deriving Repr

/-- Looking a key up in an association list of `PyVal`s yields a value
structurally smaller than the list; used for termination of `pyEq`. -/
theorem sizeOf_lookup (k : String) :
    ∀ (ys : List (String × PyVal)) (w : PyVal),
      List.lookup k ys = some w → sizeOf w < sizeOf ys := by
  intro ys
  induction ys with
  | nil => intro w h; simp [List.lookup] at h
  | cons p rest ih =>
    intro w h
    cases p with
    | mk k1 v1 =>
      cases hk : k == k1 with
      | true =>
        simp only [List.lookup, hk] at h
        cases h
        simp
        omega
      | false =>
        simp only [List.lookup, hk] at h
        have := ih w h
        simp
        omega

mutual

/-- Python `==` on modelled values.  Booleans compare equal to the
numbers 1 and 0 (bool is a subclass of int), numbers compare by exact
value (1 == 1.0), lists compare pointwise, dicts compare as maps
(order-insensitive: equal lengths and every key of the left dict present
in the right with an equal value, which is Python dict equality for
duplicate-free dicts). -/
def pyEq : PyVal → PyVal → Bool
  | .num a, .num b => a == b
  | .num a, .bool b => a == (if b then (1 : ℚ) else 0)
  | .bool a, .num b => (if a then (1 : ℚ) else 0) == b
  | .bool a, .bool b => a == b
  | .str a, .str b => a == b
  | .list xs, .list ys => pyEqList xs ys
  | .dict xs, .dict ys => xs.length == ys.length && pyEqSub xs ys
  | _, _ => false
termination_by a b => sizeOf a + sizeOf b

/-- Pointwise Python `==` on two lists (false when lengths differ). -/
def pyEqList : List PyVal → List PyVal → Bool
  | [], [] => true
  | x :: xs, y :: ys => pyEq x y && pyEqList xs ys
  | _, _ => false
termination_by xs ys => sizeOf xs + sizeOf ys

/-- Every key of the first dict is present in the second with a
`pyEq`-equal value. -/
def pyEqSub : List (String × PyVal) → List (String × PyVal) → Bool
  | [], _ => true
  | (k, v) :: rest, ys =>
    match h : List.lookup k ys with
    | some w => pyEq v w && pyEqSub rest ys
    | none => false
termination_by xs ys => sizeOf xs + sizeOf ys
decreasing_by
  all_goals simp_wf
  all_goals (have hlw := sizeOf_lookup k ys w h
             simp
             omega)

end

/-- Result of `isinstance(v, (int, float))` in the source.  A Python
`bool` satisfies this check because `bool` is a subclass of `int`. -/
def isNumeric : PyVal → Bool
  | .num _ => true
  | .bool _ => true
  | _ => false

/-- Numeric value of a value satisfying `isNumeric` (Python arithmetic
coerces `True` to 1 and `False` to 0); 0 on other values, on which it is
never used. -/
def toNum : PyVal → ℚ
  | .num q => q
  | .bool b => if b then 1 else 0
  | _ => 0

/-- Outcome of `compare_states`: `ok` models `return True`, every other
constructor models one `print(...)` diagnostic immediately followed by
`return False` in the source.  `missingKey` models the `KeyError` Python
would raise on `rust_state[key]`; it is unreachable once the key sets
have been checked equal. -/
inductive CmpResult where
  | ok
  | keyMismatch (pyKeys rsKeys : List String)
  | numericMismatch (key : String) (expected actual : ℚ)
  | listLenMismatch (key : String) (lenPy lenRs : Nat)
  | listElemMismatch (key : String) (idx : Nat) (pv rv : PyVal)
  | valueMismatch (key : String) (pv rv : PyVal)
  | missingKey (key : String)
deriving Repr

/-- First index (counting from `i`) at which the zipped lists disagree
under Python `==`, with the two disagreeing elements; embeds the
`for i, (pv, rv) in enumerate(zip(py_val, rs_val))` loop.  Like `zip`,
stops at the shorter list. -/
def firstListMismatch : List PyVal → List PyVal → Nat → Option (Nat × PyVal × PyVal)
  | x :: xs, y :: ys, i =>
    if pyEq x y then firstListMismatch xs ys (i + 1) else some (i, x, y)
  | _, _, _ => none

/-- Python `abs` on a (rational-modelled) number, written out so that it
evaluates by rewriting; equal to Mathlib `|q|` by `pyAbs_eq_abs` below. -/
def pyAbs (q : ℚ) : ℚ :=
  if q < 0 then -q else q

/-- Comparison of the two values stored at one shared key, embedding the
body of the `for key in python_state` loop in `compare_states`:
if both values satisfy the numeric `isinstance` check they are compared
with `abs(py_val - rs_val) > tolerance`; otherwise if both are lists,
lengths are compared and then elements pairwise with Python `==` (exact,
no tolerance); otherwise the values are compared with Python `==`. -/
def cmpVal (tolerance : ℚ) (key : String) (pv rv : PyVal) : CmpResult :=
  if isNumeric pv && isNumeric rv then
    if pyAbs (toNum pv - toNum rv) > tolerance then
      .numericMismatch key (toNum pv) (toNum rv)
    else .ok
  else
    match pv, rv with
    | .list xs, .list ys =>
      if xs.length ≠ ys.length then .listLenMismatch key xs.length ys.length
      else
        match firstListMismatch xs ys 0 with
        | some (i, a, b) => .listElemMismatch key i a b
        | none => .ok
    | _, _ => if pyEq pv rv then .ok else .valueMismatch key pv rv

/-- Iteration of `for key in python_state` over the (insertion-ordered)
entries of the Python state, looking each key up in the Rust state and
stopping at the first mismatching key. -/
def comparePairs (tolerance : ℚ) : List (String × PyVal) → List (String × PyVal) → CmpResult
  | [], _ => .ok
  | (k, pv) :: rest, rs =>
    match List.lookup k rs with
    | none => .missingKey k
    | some rv =>
      match cmpVal tolerance k pv rv with
      | .ok => comparePairs tolerance rest rs
      | r => r

/-- Key list of a state, in insertion order (`state.keys()`). -/
def stateKeys (st : List (String × PyVal)) : List String :=
  st.map Prod.fst

/-- Key set of a state (`set(state.keys())`). -/
def keySet (st : List (String × PyVal)) : Finset String :=
  (stateKeys st).toFinset

/-- Embedding of `compare_states(python_state, rust_state, tolerance)`:
first the key sets are compared (any difference is an immediate
`keyMismatch` reporting both key lists), then the values at each key of
`python_state` in order, stopping at the first mismatch. -/
def compare_states (python_state rust_state : List (String × PyVal))
    (tolerance : ℚ) : CmpResult :=
  if keySet python_state ≠ keySet rust_state then
    .keyMismatch (stateKeys python_state) (stateKeys rust_state)
  else comparePairs tolerance python_state rust_state

/-- Default tolerance of `compare_states` (the literal `1e-6`). -/
def defaultTolerance : ℚ := 1 / 1000000

/-- Application of `compare_states` with its default tolerance, as done
by `main`. -/
def compareStatesD (python_state rust_state : List (String × PyVal)) : CmpResult :=
  compare_states python_state rust_state defaultTolerance

/-- Boolean value `compare_states` returns: `True` exactly when no
mismatch was found. -/
def compareStatesBool (python_state rust_state : List (String × PyVal))
    (tolerance : ℚ) : Bool :=
  match compare_states python_state rust_state tolerance with
  | .ok => true
  | _ => false

/-- Failure while obtaining the reference result: `run_python_workflow`
raising on import or during `graph.invoke`.  Any such exception is
caught by the `try` block in `main`. -/
inductive RefErr where
  | refFailure
deriving Repr, DecidableEq

/-- Process-level failure of the candidate run inside
`run_rust_workflow`: `subprocess.run(..., check=True)` raises
`CalledProcessError` on a crash or non-zero exit status, and
`json.loads(result.stdout)` raises on malformed or unparsable output.
Either exception propagates to the `try` block in `main`. -/
inductive CandErr where
  | nonZeroExit
  | unparsableOutput
deriving Repr, DecidableEq

/-- Exception reaching the `except Exception` handler of `main`. -/
inductive ProcErr where
  | refError (e : RefErr)
  | candError (e : CandErr)
deriving Repr, DecidableEq

/-- Environment of one `main` run for a given workflow name: which files
exist, the initial state governing the reference run, and the reference
and candidate executions as functions (the candidate's argument is the
state serialized onto its input channel). -/
structure HarnessEnv where
  pythonWorkflowExists : Bool
  initialState : List (String × PyVal)
  invokeRef : List (String × PyVal) → Except RefErr (List (String × PyVal))
  rustBinaryExists : Bool
  rustRun : List (String × PyVal) → Except CandErr (List (String × PyVal))

/-- Outcome of `main`, one constructor per exit path of the source:
missing Python workflow (exit 1), validator match (exit 0), validator
mismatch (exit 1), missing candidate binary (comparison skipped, exit 0),
and a caught exception (exit 1). -/
inductive Outcome where
  | workflowNotFound
  | matched
  | mismatched (d : CmpResult)
  | skipped
  | processError (e : ProcErr)
deriving Repr

/-- Embedding of `main` for a given workflow: checks the Python workflow
exists, runs the reference, and if the candidate binary exists feeds it
`python_result` — the reference run's final state — then compares with
`compare_states` at default tolerance; any exception yields
`processError`. -/
def mainModel (env : HarnessEnv) : Outcome :=
  if env.pythonWorkflowExists = false then .workflowNotFound
  else
    match env.invokeRef env.initialState with
    | .error e => .processError (.refError e)
    | .ok pythonResult =>
      if env.rustBinaryExists then
        match env.rustRun pythonResult with
        | .error e => .processError (.candError e)
        | .ok rustResult =>
          match compareStatesD pythonResult rustResult with
          | .ok => .matched
          | d => .mismatched d
      else .skipped

/-- State `main` serializes onto the candidate's input channel, when
execution reaches the candidate at all: the source passes
`python_result` (the reference final state) to `run_rust_workflow`. -/
def candidateInputFed (env : HarnessEnv) : Option (List (String × PyVal)) :=
  if env.pythonWorkflowExists = false then none
  else
    match env.invokeRef env.initialState with
    | .error _ => none
    | .ok pythonResult =>
      if env.rustBinaryExists then some pythonResult else none

/-- Exit code of the process for each outcome of `main`. -/
def exitCode : Outcome → Nat
  | .workflowNotFound => 1
  | .matched => 0
  | .mismatched _ => 1
  | .skipped => 0
  | .processError _ => 1

/-- Distinguishing diagnostic line printed on each outcome (the constant
part of the corresponding `print` in the source). -/
def diagnostic : Outcome → String
  | .workflowNotFound => "Python workflow not found"
  | .matched => "✅ Results match!"
  | .mismatched _ => "❌ Results differ!"
  | .skipped => "Skipping Rust comparison"
  | .processError _ => "❌ Error"

/-- Modelled from the spec: the target of a routing rule, either a named
node or the terminal sentinel END (§3). -/
inductive Target where
  | toNode (name : String)
  | toEND
deriving Repr, DecidableEq

/-- Modelled from the spec: a compiled graph over state type `St` —
named nodes with their transforms, unconditional edges, conditional
edges (routing function plus label→target mapping), and the entry point
(§3).  The graph-engine implementation itself is not part of the source
tree; the fixture files only build graphs against it. -/
structure Graph (St : Type) where
  nodes : List (String × (St → St))
  edges : List (String × Target)
  condEdges : List (String × ((St → String) × List (String × Target)))
  entryPoint : String

/-- Modelled from the spec: runtime errors of one invocation — a routing
function returning an unmapped label, and the iteration cap being
exceeded (§4.2, §7).  `unknownNode` models stepping onto an undeclared
node, which compilation rules out for well-formed graphs. -/
inductive ExecError where
  | routingError (label : String)
  | iterationLimitExceeded
  | unknownNode (name : String)
deriving Repr, DecidableEq

/-- Modelled from the spec: next-hop resolution (§4.2 step 3) — an
unconditional Edge wins, else a ConditionalEdge routes via its label
mapping (an unmapped label is a RoutingError), else the node's implicit
successor is END. -/
def nextHop {St : Type} (g : Graph St) (current : String) (state : St) :
    Except ExecError Target :=
  match List.lookup current g.edges with
  | some t => .ok t
  | none =>
    match List.lookup current g.condEdges with
    | some (route, targets) =>
      match List.lookup (route state) targets with
      | some t => .ok t
      | none => .error (.routingError (route state))
    | none => .ok .toEND

/-- Modelled from the spec: the executor loop (§4.2) — run the current
node's transform, count the step, resolve the next hop; stop with the
final state on END, fail with IterationLimitExceeded when the step count
exceeds the cap and execution would continue.  The structural `fuel`
argument only makes the recursion well-founded; `invoke` supplies
`cap + 1`, which the cap check keeps from ever reaching 0.  Alongside
the final state the executed node names are returned in order, so that
"node X ran exactly k times" is expressible. -/
def invokeAux {St : Type} (g : Graph St) (cap : Nat) :
    Nat → String → St → Nat → List String → Except ExecError (St × List String)
  | 0, _, _, _, _ => .error .iterationLimitExceeded
  | fuel + 1, current, state, steps, trace =>
    match List.lookup current g.nodes with
    | none => .error (.unknownNode current)
    | some transform =>
      let state1 := transform state
      let steps1 := steps + 1
      let trace1 := trace ++ [current]
      match nextHop g current state1 with
      | .error e => .error e
      | .ok .toEND => .ok (state1, trace1)
      | .ok (.toNode nxt) =>
        if steps1 > cap then .error .iterationLimitExceeded
        else invokeAux g cap fuel nxt state1 steps1 trace1

/-- Modelled from the spec: `invoke(initialState)` with a configured
iteration cap (§4.2), starting at the entry point with zero steps. -/
def invoke {St : Type} (g : Graph St) (cap : Nat) (init : St) :
    Except ExecError (St × List String) :=
  invokeAux g cap (cap + 1) g.entryPoint init 0 []

/-- Modelled from the spec: a default iteration cap, "default large,
e.g. 10 000" (§4.2 step 5). -/
def defaultCap : Nat := 10000

/-- Invocation under the default iteration cap. -/
def invokeD {St : Type} (g : Graph St) (init : St) :
    Except ExecError (St × List String) :=
  invoke g defaultCap init

/-- State of `linear_workflow.py`: a counter and a message list. -/
structure SimpleState where
  counter : Int
  messages : List String
deriving Repr, DecidableEq

/-- Embedding of `node_a`: increments the counter and appends its
message. -/
def node_a (state : SimpleState) : SimpleState :=
  { state with counter := state.counter + 1,
               messages := state.messages ++ ["Node A executed"] }

/-- Embedding of `node_b`. -/
def node_b (state : SimpleState) : SimpleState :=
  { state with counter := state.counter + 1,
               messages := state.messages ++ ["Node B executed"] }

/-- Embedding of `node_c`. -/
def node_c (state : SimpleState) : SimpleState :=
  { state with counter := state.counter + 1,
               messages := state.messages ++ ["Node C executed"] }

/-- Graph built by `linear_workflow.py`: nodes a, b, c registered in
that order, entry point a, edges a → b → c → END. -/
def linearGraph : Graph SimpleState where
  nodes := [("a", node_a), ("b", node_b), ("c", node_c)]
  edges := [("a", .toNode "b"), ("b", .toNode "c"), ("c", .toEND)]
  condEdges := []
  entryPoint := "a"

/-- State of `loop_workflow.py`. -/
structure LoopState where
  iteration : Int
  max_iterations : Int
  accumulated_value : Int
  history : List String
deriving Repr, DecidableEq

/-- Embedding of `initialize` (named `initNode` here): zeroes the
iteration counter and the accumulator and records the start. -/
def initNode (state : LoopState) : LoopState :=
  { state with iteration := 0, accumulated_value := 0,
               history := state.history ++ ["Initialized"] }

/-- History line appended by each loop iteration
(`f"Iteration {...}: accumulated={...}"`). -/
def iterMsg (it acc : Int) : String :=
  s!"Iteration {it}: accumulated={acc}"

/-- History line appended by `finalize` (`f"Completed {...} iterations"`). -/
def doneMsg (it : Int) : String :=
  s!"Completed {it} iterations"

/-- Embedding of `loop_body`: advances the iteration counter, adds it to
the accumulator, and records the step. -/
def loop_body (state : LoopState) : LoopState :=
  let it := state.iteration + 1
  let acc := state.accumulated_value + it
  { state with iteration := it, accumulated_value := acc,
               history := state.history ++ [iterMsg it acc] }

/-- Embedding of `check_continue`: routes back to `loop_body` while the
iteration counter is below `max_iterations`, else to `finalize`. -/
def check_continue (state : LoopState) : String :=
  if state.iteration < state.max_iterations then "loop_body" else "finalize"

/-- Embedding of `finalize`: records completion. -/
def finalize (state : LoopState) : LoopState :=
  let it := state.iteration
  { state with history := state.history ++ [doneMsg it] }

/-- Graph built by `loop_workflow.py`: entry point `initialize`, edge
`initialize` → `loop_body`, a conditional edge on `loop_body` driven by
`check_continue` with targets `loop_body` (self-loop) and `finalize`,
and edge `finalize` → END. -/
def loopGraph : Graph LoopState where
  nodes := [("initialize", initNode), ("loop_body", loop_body),
            ("finalize", finalize)]
  edges := [("initialize", .toNode "loop_body"), ("finalize", .toEND)]
  condEdges := [("loop_body", (check_continue,
    [("loop_body", .toNode "loop_body"), ("finalize", .toNode "finalize")]))]
  entryPoint := "initialize"

/-- State of `multi_path_workflow.py`. -/
structure MultiPathState where
  input_value : Int
  path_a_result : Int
  path_b_result : Int
  path_c_result : Int
  final_result : Int
  chosen_path : String
deriving Repr, DecidableEq

/-- Embedding of `start`: marks the chosen path unknown. -/
def start (state : MultiPathState) : MultiPathState :=
  { state with chosen_path := "unknown" }

/-- Embedding of `router`: selects a path label from `input_value`
(`< 33` → path_a, `< 66` → path_b, else path_c). -/
def router (state : MultiPathState) : String :=
  if state.input_value < 33 then "path_a"
  else if state.input_value < 66 then "path_b"
  else "path_c"

/-- Embedding of `path_a`: doubles the input into `path_a_result`. -/
def path_a (state : MultiPathState) : MultiPathState :=
  { state with path_a_result := state.input_value * 2, chosen_path := "A" }

/-- Embedding of `path_b`: adds 100 to the input into `path_b_result`. -/
def path_b (state : MultiPathState) : MultiPathState :=
  { state with path_b_result := state.input_value + 100, chosen_path := "B" }

/-- Embedding of `path_c`: squares the input into `path_c_result`. -/
def path_c (state : MultiPathState) : MultiPathState :=
  { state with path_c_result := state.input_value ^ 2, chosen_path := "C" }

/-- Embedding of `merge`: sums the three path results into
`final_result`. -/
def merge (state : MultiPathState) : MultiPathState :=
  { state with final_result :=
      state.path_a_result + state.path_b_result + state.path_c_result }

/-- Graph built by `multi_path_workflow.py`: entry point `start`, a
conditional edge on `start` driven by `router`, edges from each path to
`merge`, and `merge` → END. -/
def multiPathGraph : Graph MultiPathState where
  nodes := [("start", start), ("path_a", path_a), ("path_b", path_b),
            ("path_c", path_c), ("merge", merge)]
  edges := [("path_a", .toNode "merge"), ("path_b", .toNode "merge"),
            ("path_c", .toNode "merge"), ("merge", .toEND)]
  condEdges := [("start", (router,
    [("path_a", .toNode "path_a"), ("path_b", .toNode "path_b"),
     ("path_c", .toNode "path_c")]))]
  entryPoint := "start"

/-- Sum of the `k` consecutive integers `i+1, i+2, …, i+k`; the value
the loop body accumulates over `k` further iterations starting from
iteration counter `i`. -/
def sumFrom : Nat → Nat → Int
  | _, 0 => 0
  | i, k + 1 => ((i : Int) + 1) + sumFrom (i + 1) k

/-- Agreement of the executable absolute value with Mathlib `|q|`. -/
theorem pyAbs_eq_abs (q : ℚ) : pyAbs q = |q| := by
  rw [pyAbs]
  by_cases h : q < 0
  · rw [if_pos h, abs_of_neg h]
  · rw [if_neg h, abs_of_nonneg (le_of_not_lt h)]

/-- Closed form of twice the partial sum `sumFrom`. -/
theorem two_mul_sumFrom : ∀ (k i : Nat), 2 * sumFrom i k = (k : Int) * (2 * i + k + 1) := by
  intro k
  induction k with
  | zero => intro i; simp [sumFrom]
  | succ k ih =>
    intro i
    rw [sumFrom]
    rw [mul_add, ih (i + 1)]
    push_cast
    ring

/-- With equal lengths, the first-mismatch scan comes up empty exactly
when the two lists are pointwise Python-equal. -/
theorem firstListMismatch_none :
    ∀ (xs ys : List PyVal), xs.length = ys.length →
      ∀ i, (firstListMismatch xs ys i = none ↔ pyEqList xs ys = true) := by
  intro xs
  induction xs with
  | nil =>
    intro ys h i
    cases ys with
    | nil => simp [firstListMismatch, pyEqList]
    | cons y ys => simp at h
  | cons x xs ih =>
    intro ys h i
    cases ys with
    | nil => simp at h
    | cons y ys =>
      rw [firstListMismatch, pyEqList]
      by_cases hxy : pyEq x y
      · rw [if_pos hxy, hxy]
        simp only [Bool.true_and]
        exact ih ys (by simpa using h) (i + 1)
      · rw [if_neg hxy]
        simp [hxy]

/-- Behaviour of the executor on a `loop_body` self-loop with `k ≥ 1`
iterations left before the counter reaches the threshold `T`: the loop
runs `k` more times, accumulates `sumFrom i k`, routes to `finalize` and
terminates, provided the iteration cap and the structural fuel allow
those steps. -/
theorem loop_run (cap T : Nat) :
    ∀ (k : Nat), 1 ≤ k → ∀ (i : Nat) (acc : Int) (h tr : List String) (fuel steps : Nat),
    i + k = T →
    steps + k + 1 ≤ cap + 1 →
    k + 1 ≤ fuel →
    ∃ hist : List String,
      invokeAux loopGraph cap fuel "loop_body" ⟨(i : Int), (T : Int), acc, h⟩ steps tr =
        .ok (⟨(T : Int), (T : Int), acc + sumFrom i k, hist⟩,
          tr ++ List.replicate k "loop_body" ++ ["finalize"]) := by
  intro k
  induction k with
  | zero => omega
  | succ k ih =>
    intro _ i acc h tr fuel steps hiT hcap hfuel
    match fuel, hfuel with
    | f + 1, _ =>
      cases k with
      | zero =>
        have hi1 : (i : Int) + 1 = (T : Int) := by exact_mod_cast hiT
        have hroute : ¬ ((i : Int) + 1 < (T : Int)) := by omega
        match f, show 1 ≤ f by omega with
        | f' + 1, _ =>
          refine ⟨?_, ?_⟩
          case _ => exact (loop_body ⟨(i : Int), (T : Int), acc, h⟩).history ++
            [doneMsg ((i : Int) + 1)]
          simp [invokeAux, loopGraph, nextHop, List.lookup, loop_body, check_continue,
            finalize, hroute, show ¬ (steps + 1 > cap) by omega, sumFrom]
          exact hi1
      | succ k' =>
        have hlt : (i : Int) + 1 < (T : Int) := by
          have hn : i + 1 < T := by omega
          exact_mod_cast hn
        have hcast : ((i + 1 : Nat) : Int) = (i : Int) + 1 := by push_cast; ring
        obtain ⟨hist, hrec⟩ := ih (by omega) (i + 1) (acc + ((i : Int) + 1))
          (h ++ [iterMsg ((i : Int) + 1) (acc + ((i : Int) + 1))])
          (tr ++ ["loop_body"]) f (steps + 1) (by omega) (by omega) (by omega)
        rw [hcast] at hrec
        refine ⟨hist, ?_⟩
        have hsimp : loop_body ⟨(i : Int), (T : Int), acc, h⟩ =
            ⟨(i : Int) + 1, (T : Int), acc + ((i : Int) + 1),
              h ++ [iterMsg ((i : Int) + 1) (acc + ((i : Int) + 1))]⟩ := by
          simp [loop_body]
        have hstep : invokeAux loopGraph cap (f + 1) "loop_body"
            ⟨(i : Int), (T : Int), acc, h⟩ steps tr =
            invokeAux loopGraph cap f "loop_body" (loop_body ⟨(i : Int), (T : Int), acc, h⟩)
              (steps + 1) (tr ++ ["loop_body"]) := by
          simp [invokeAux, loopGraph, nextHop, List.lookup, loop_body, check_continue,
            hlt, show ¬ (steps + 1 > cap) by omega]
        rw [hstep, hsimp, hrec]
        simp [sumFrom, List.replicate_succ]
        ring

/-- Claim C1, counterexample: two states identical except that one
numeric element inside a sequence differs by 1e-9 do NOT validate as
equal — `compare_states` compares list elements with exact Python `==`,
so it reports a list-element mismatch at index 0 instead of `ok`. -/
theorem C1_counterexample :
    compareStatesD [("vals", .list [.num 1, .num 2])]
        [("vals", .list [.num (1 + 1 / 1000000000), .num 2])] ≠ .ok ∧
    compareStatesD [("vals", .list [.num 1, .num 2])]
        [("vals", .list [.num (1 + 1 / 1000000000), .num 2])] =
      .listElemMismatch "vals" 0 (.num 1) (.num (1 + 1 / 1000000000)) := by
  have h : compareStatesD [("vals", .list [.num 1, .num 2])]
      [("vals", .list [.num (1 + 1 / 1000000000), .num 2])] =
      .listElemMismatch "vals" 0 (.num 1) (.num (1 + 1 / 1000000000)) := by
    simp [compareStatesD, compare_states, keySet, stateKeys, comparePairs, List.lookup,
      cmpVal, isNumeric, firstListMismatch, pyEq]
  exact ⟨by rw [h]; simp, h⟩

/-- Claim C1, amended: when a shared key holds sequence values in both
states they compare equal exactly when the lengths match and each
element pair is exactly Python-equal — the numeric tolerance does not
propagate into elements; when a shared key holds mapping values in both
states they are compared by exact Python equality, again without
tolerance. -/
theorem C1_sequences_and_mappings_exact (tol : ℚ) (key : String)
    (xs ys : List PyVal) (dx dy : List (String × PyVal)) :
    (cmpVal tol key (.list xs) (.list ys) = .ok ↔
      xs.length = ys.length ∧ pyEqList xs ys = true) ∧
    (cmpVal tol key (.dict dx) (.dict dy) = .ok ↔
      pyEq (.dict dx) (.dict dy) = true) := by
  constructor
  · simp only [cmpVal, isNumeric, Bool.false_and, Bool.and_false, if_false,
      Bool.false_eq_true, ite_false]
    by_cases hlen : xs.length = ys.length
    · rw [if_neg (by simpa using hlen)]
      cases hm : firstListMismatch xs ys 0 with
      | none =>
        simp only []
        constructor
        · intro _
          exact ⟨hlen, (firstListMismatch_none xs ys hlen 0).mp hm⟩
        · intro _; trivial
      | some p =>
        obtain ⟨i, a, b⟩ := p
        simp only []
        constructor
        · intro hcontra; cases hcontra
        · intro ⟨_, heq⟩
          rw [← firstListMismatch_none xs ys hlen 0] at heq
          rw [heq] at hm
          cases hm
    · rw [if_pos (by simpa using hlen)]
      constructor
      · intro hcontra; cases hcontra
      · intro ⟨h1, _⟩; exact absurd h1 hlen
  · simp only [cmpVal, isNumeric, Bool.false_and, Bool.and_false, if_false,
      Bool.false_eq_true, ite_false]
    by_cases hpq : pyEq (.dict dx) (.dict dy) = true
    · rw [if_pos hpq]; simp [hpq]
    · rw [if_neg hpq]
      constructor
      · intro hcontra; cases hcontra
      · intro h1; exact absurd h1 hpq

/-- Claim C2 (code bug): the conformance check feeds the candidate the
reference run's FINAL state `python_result`, not the initial state that
governed the reference run.  At an environment whose reference run maps
initial state `{x: 0}` to final state `{x: 1}`, the state serialized to
the candidate is `{x: 1}`, which differs from the initial state. -/
theorem C2_candidate_fed_reference_final_state :
    candidateInputFed ⟨true, [("x", PyVal.num 0)], fun _ => .ok [("x", PyVal.num 1)], true,
        fun s => .ok s⟩ = some [("x", PyVal.num 1)] ∧
    HarnessEnv.initialState ⟨true, [("x", PyVal.num 0)], fun _ => .ok [("x", PyVal.num 1)],
        true, fun s => .ok s⟩ = [("x", PyVal.num 0)] ∧
    [("x", PyVal.num 1)] ≠ [("x", PyVal.num 0)] := by
  refine ⟨rfl, rfl, ?_⟩
  intro h
  simp only [List.cons.injEq, Prod.mk.injEq, PyVal.num.injEq] at h
  exact one_ne_zero h.1.2

/-- Claim C3: the conformance CLI exits 0 exactly on a validator match
or on a skipped comparison (missing candidate binary, explicitly
reported as skipped), exits 1 on a semantic mismatch and on any caught
process-level error, and prints a distinguishing diagnostic on every
outcome. -/
theorem C3_exit_codes (env : HarnessEnv) :
    (exitCode (mainModel env) = 0 ↔
      mainModel env = .matched ∨ mainModel env = .skipped) ∧
    (∀ d, mainModel env = .mismatched d → exitCode (mainModel env) = 1) ∧
    (∀ e, mainModel env = .processError e → exitCode (mainModel env) = 1) ∧
    (env.pythonWorkflowExists = true → env.rustBinaryExists = false →
      ∀ r, env.invokeRef env.initialState = .ok r → mainModel env = .skipped) ∧
    diagnostic .skipped = "Skipping Rust comparison" ∧
    (∀ o : Outcome, diagnostic o ≠ "") := by
  refine ⟨?_, ?_, ?_, ?_, rfl, ?_⟩
  · cases h : mainModel env <;> simp [exitCode]
  · intro d h; rw [h]; rfl
  · intro e h; rw [h]; rfl
  · intro hpy hrust r hr
    simp [mainModel, hpy, hr, hrust]
  · intro o; cases o <;> simp only [diagnostic] <;> decide

/-- Claim C3, witness: at an environment with a working reference run
and no candidate binary, the outcome is `skipped` with exit code 0. -/
theorem C3_exit_codes_witness :
    mainModel ⟨true, [], fun _ => .ok [], false, fun _ => .error .nonZeroExit⟩ = .skipped ∧
    exitCode (mainModel ⟨true, [], fun _ => .ok [], false,
      fun _ => .error .nonZeroExit⟩) = 0 := by
  have h := (C3_exit_codes ⟨true, [], fun _ => .ok [], false,
    fun _ => .error .nonZeroExit⟩).2.2.2.1 rfl rfl [] rfl
  exact ⟨h, by rw [h]; rfl⟩

/-- Claim C4: whenever the key sets of the two states differ,
`compare_states` reports the key mismatch with both key lists,
regardless of the values; per-key value comparison is reached only when
the key sets are identical. -/
theorem C4_key_set_precedence (R C : List (String × PyVal)) (tol : ℚ) :
    (keySet R ≠ keySet C →
      compare_states R C tol = .keyMismatch (stateKeys R) (stateKeys C)) ∧
    (keySet R = keySet C → compare_states R C tol = comparePairs tol R C) := by
  constructor
  · intro h
    rw [compare_states, if_pos h]
  · intro h
    rw [compare_states, if_neg (not_not_intro h)]

/-- Claim C4, witness: two states whose shared key `a` holds identical
values but whose key sets differ report a key mismatch. -/
theorem C4_key_set_precedence_witness :
    keySet [("a", PyVal.num 1), ("b", PyVal.num 2)] ≠ keySet [("a", PyVal.num 1)] ∧
    compare_states [("a", PyVal.num 1), ("b", PyVal.num 2)] [("a", PyVal.num 1)]
      defaultTolerance = .keyMismatch ["a", "b"] ["a"] := by
  have hne : keySet [("a", PyVal.num 1), ("b", PyVal.num 2)] ≠
      keySet [("a", PyVal.num 1)] := by decide
  exact ⟨hne, (C4_key_set_precedence [("a", PyVal.num 1), ("b", PyVal.num 2)]
    [("a", PyVal.num 1)] defaultTolerance).1 hne⟩

/-- Reduction of the per-key comparison on a pair of values both
passing the numeric `isinstance` check. -/
theorem cmpVal_numeric (tol : ℚ) (key : String) (pv rv : PyVal)
    (hp : isNumeric pv = true) (hr : isNumeric rv = true) :
    cmpVal tol key pv rv =
      if |toNum pv - toNum rv| ≤ tol then .ok
      else .numericMismatch key (toNum pv) (toNum rv) := by
  simp only [cmpVal, hp, hr, Bool.and_self, if_true, pyAbs_eq_abs]
  by_cases h : |toNum pv - toNum rv| ≤ tol
  · rw [if_neg (not_lt.mpr h), if_pos h]
  · rw [if_pos (lt_of_not_le h), if_neg h]

/-- Claim C5: at a shared key holding two numbers, the validator judges
them equal exactly when `|r - c| ≤ tolerance` (else it reports the key
with the expected and actual values); the default tolerance is 1e-6, so
a 1e-9 difference on one numeric field passes and a 1.0 difference on
it fails naming the field. -/
theorem C5_numeric_tolerance (tol : ℚ) (key : String) (r c : ℚ) :
    cmpVal tol key (.num r) (.num c) =
      (if |r - c| ≤ tol then .ok else .numericMismatch key r c) ∧
    defaultTolerance = 1 / 1000000 ∧
    compareStatesD [("x", .num (3 / 2)), ("y", .str "s")]
      [("x", .num (3 / 2 + 1 / 1000000000)), ("y", .str "s")] = .ok ∧
    compareStatesD [("x", .num (3 / 2)), ("y", .str "s")]
      [("x", .num (3 / 2 + 1)), ("y", .str "s")] =
      .numericMismatch "x" (3 / 2) (3 / 2 + 1) := by
  refine ⟨?_, rfl, ?_, ?_⟩
  · have hh := cmpVal_numeric tol key (.num r) (.num c) rfl rfl
    simp only [toNum] at hh
    exact hh
  · simp [compareStatesD, compare_states, keySet, stateKeys, comparePairs,
      List.lookup, cmpVal, isNumeric, toNum, pyAbs, defaultTolerance, pyEq]
    try norm_num
  · simp [compareStatesD, compare_states, keySet, stateKeys, comparePairs,
      List.lookup, cmpVal, isNumeric, toNum, pyAbs, defaultTolerance, pyEq]
    try norm_num

/-- Claim C6: when the candidate binary exists but its run fails at the
process level, `main` reports a process error with exit code 1, never
`skipped`, and its diagnostic differs from the semantic-mismatch
diagnostic for every possible mismatch report. -/
theorem C6_process_error_distinct (env : HarnessEnv)
    (r : List (String × PyVal)) (e : CandErr) :
    env.pythonWorkflowExists = true →
    env.invokeRef env.initialState = .ok r →
    env.rustBinaryExists = true →
    env.rustRun r = .error e →
    mainModel env = .processError (.candError e) ∧
    exitCode (mainModel env) = 1 ∧
    mainModel env ≠ .skipped ∧
    (∀ d : CmpResult, diagnostic (.processError (.candError e)) ≠
      diagnostic (.mismatched d)) := by
  intro hpy hr hrust hcand
  have hm : mainModel env = .processError (.candError e) := by
    simp [mainModel, hpy, hr, hrust, hcand]
  refine ⟨hm, by rw [hm]; rfl, by rw [hm]; simp, ?_⟩
  intro d
  simp only [diagnostic]
  decide

/-- Claim C6, witness: a candidate crashing with non-zero exit yields a
process-error outcome with exit code 1. -/
theorem C6_process_error_distinct_witness :
    mainModel ⟨true, [("x", PyVal.num 0)], fun _ => .ok [("x", PyVal.num 1)], true,
      fun _ => .error .nonZeroExit⟩ = .processError (.candError .nonZeroExit) ∧
    exitCode (mainModel ⟨true, [("x", PyVal.num 0)], fun _ => .ok [("x", PyVal.num 1)],
      true, fun _ => .error .nonZeroExit⟩) = 1 := by
  have h := C6_process_error_distinct ⟨true, [("x", PyVal.num 0)],
    fun _ => .ok [("x", PyVal.num 1)], true, fun _ => .error .nonZeroExit⟩
    [("x", PyVal.num 1)] .nonZeroExit rfl rfl rfl rfl
  exact ⟨h.1, h.2.1⟩

/-- Claim C7: for every initial LoopState whose `max_iterations` is
`T ≥ 1` (and an iteration cap admitting `T + 2` node executions, per the
specification's configurable cap), the loop workflow terminates with
`iteration = T` and `accumulated_value = T (T + 1) / 2`, having executed
`loop_body` exactly `T` times — the trace being `initialize`, then `T`
times `loop_body`, then `finalize` — with `check_continue` routing back
to `loop_body` exactly while the counter is below the threshold. -/
theorem C7_loop_terminates_after_T (T cap : Nat) (i0 a0 : Int) (h0 : List String)
    (hT : 1 ≤ T) (hcap : T + 1 ≤ cap) :
    ∃ hist : List String,
      invoke loopGraph cap ⟨i0, (T : Int), a0, h0⟩ =
        .ok (⟨(T : Int), (T : Int), ((T * (T + 1) / 2 : Nat) : Int), hist⟩,
          "initialize" :: (List.replicate T "loop_body" ++ ["finalize"])) ∧
      ("initialize" :: (List.replicate T "loop_body" ++ ["finalize"])).count "loop_body" = T ∧
      (∀ s : LoopState, s.iteration < s.max_iterations → check_continue s = "loop_body") ∧
      (∀ s : LoopState, s.max_iterations ≤ s.iteration → check_continue s = "finalize") := by
  have hstep : invokeAux loopGraph cap (cap + 1) "initialize" ⟨i0, (T : Int), a0, h0⟩ 0 [] =
      invokeAux loopGraph cap cap "loop_body" ⟨0, (T : Int), 0, h0 ++ ["Initialized"]⟩ 1
        ["initialize"] := by
    simp [invokeAux, loopGraph, nextHop, List.lookup, initNode,
      show ¬ (0 + 1 > cap) by omega]
  obtain ⟨hist, hrec⟩ := loop_run cap T T hT 0 0 (h0 ++ ["Initialized"]) ["initialize"] cap 1
    (by omega) (by omega) (by omega)
  have hgauss : sumFrom 0 T = ((T * (T + 1) / 2 : Nat) : Int) := by
    have h2 : 2 * sumFrom 0 T = ((T * (T + 1) : Nat) : Int) := by
      rw [two_mul_sumFrom]; push_cast; ring
    generalize hn : T * (T + 1) = n at *
    omega
  refine ⟨hist, ?_, ?_, ?_, ?_⟩
  · rw [invoke]
    show invokeAux loopGraph cap (cap + 1) "initialize" ⟨i0, (T : Int), a0, h0⟩ 0 [] = _
    rw [hstep]
    simp only [Nat.cast_zero] at hrec
    rw [hrec, hgauss]
    simp
  · simp [List.count_cons, List.count_append, List.count_replicate]
  · intro s hs; simp [check_continue, hs]
  · intro s hs; simp [check_continue, show ¬ (s.iteration < s.max_iterations) by omega]

/-- Claim C7, witness: with threshold 5 under the default-sized cap
10000, the loop workflow runs `loop_body` exactly 5 times and ends with
`iteration = 5` and `accumulated_value = 15`. -/
theorem C7_loop_terminates_after_T_witness :
    1 ≤ 5 ∧ 5 + 1 ≤ 10000 ∧
    ∃ hist : List String,
      invoke loopGraph 10000 ⟨0, (5 : Int), 0, []⟩ =
        .ok (⟨(5 : Int), (5 : Int), (15 : Int), hist⟩,
          "initialize" :: (List.replicate 5 "loop_body" ++ ["finalize"])) ∧
      ("initialize" :: (List.replicate 5 "loop_body" ++ ["finalize"])).count "loop_body" = 5 := by
  obtain ⟨hist, h1, h2, _, _⟩ :=
    C7_loop_terminates_after_T 5 10000 0 0 [] (by norm_num) (by norm_num)
  exact ⟨by norm_num, by norm_num, hist, h1, h2⟩

/-- Claim C8: the router picks exactly one branch by the integer input
(`< 33` → path A, `< 66` → path B, else path C); only that branch's
result field becomes nonzero (the others keep their initial 0), and the
merge sum `final_result` equals that one branch's contribution — `v * 2`
for A, `v + 100` for B, `v ^ 2` for C — as the trace and final state
show. -/
theorem C8_branch_exclusivity (v f0 : Int) (c0 : String) :
    (v < 33 → invokeD multiPathGraph ⟨v, 0, 0, 0, f0, c0⟩ =
      .ok (⟨v, v * 2, 0, 0, v * 2, "A"⟩, ["start", "path_a", "merge"])) ∧
    (33 ≤ v → v < 66 → invokeD multiPathGraph ⟨v, 0, 0, 0, f0, c0⟩ =
      .ok (⟨v, 0, v + 100, 0, v + 100, "B"⟩, ["start", "path_b", "merge"])) ∧
    (66 ≤ v → invokeD multiPathGraph ⟨v, 0, 0, 0, f0, c0⟩ =
      .ok (⟨v, 0, 0, v ^ 2, v ^ 2, "C"⟩, ["start", "path_c", "merge"])) := by
  refine ⟨?_, ?_, ?_⟩
  · intro h
    simp [invokeD, invoke, invokeAux, defaultCap, multiPathGraph, nextHop, List.lookup,
      start, router, path_a, path_b, path_c, merge, h]
  · intro h1 h2
    simp [invokeD, invoke, invokeAux, defaultCap, multiPathGraph, nextHop, List.lookup,
      start, router, path_a, path_b, path_c, merge, h2, not_lt.mpr h1]
  · intro h1
    have h2 : ¬ v < 33 := by omega
    have h3 : ¬ v < 66 := by omega
    simp [invokeD, invoke, invokeAux, defaultCap, multiPathGraph, nextHop, List.lookup,
      start, router, path_a, path_b, path_c, merge, h2, h3]

/-- Claim C8, witness: inputs 10, 50 and 80 take paths A, B and C with
final results 20, 150 and 6400. -/
theorem C8_branch_exclusivity_witness :
    invokeD multiPathGraph ⟨10, 0, 0, 0, 0, ""⟩ =
      .ok (⟨10, 20, 0, 0, 20, "A"⟩, ["start", "path_a", "merge"]) ∧
    invokeD multiPathGraph ⟨50, 0, 0, 0, 0, ""⟩ =
      .ok (⟨50, 0, 150, 0, 150, "B"⟩, ["start", "path_b", "merge"]) ∧
    invokeD multiPathGraph ⟨80, 0, 0, 0, 0, ""⟩ =
      .ok (⟨80, 0, 0, 6400, 6400, "C"⟩, ["start", "path_c", "merge"]) := by
  refine ⟨?_, ?_, ?_⟩
  · have h := (C8_branch_exclusivity 10 0 "").1 (by norm_num)
    norm_num at h
    exact h
  · have h := (C8_branch_exclusivity 50 0 "").2.1 (by norm_num) (by norm_num)
    norm_num at h
    exact h
  · have h := (C8_branch_exclusivity 80 0 "").2.2 (by norm_num)
    norm_num at h
    exact h

/-- Claim C9: the linear workflow visits nodes a, b, c exactly once in
registration order and returns counter `n + 3` with the three node
messages appended in order. -/
theorem C9_linear_runs_each_node_once (n : Int) (m : List String) :
    invokeD linearGraph ⟨n, m⟩ =
      .ok (⟨n + 3, m ++ ["Node A executed", "Node B executed", "Node C executed"]⟩,
        ["a", "b", "c"]) := by
  simp [invokeD, invoke, invokeAux, defaultCap, linearGraph, nextHop, List.lookup,
    node_a, node_b, node_c]
  omega

/-- Claim C10: a Python boolean passes the numeric `isinstance` check
(bool subclasses int), so boolean-vs-number and boolean-vs-boolean pairs
are compared by `|r - c| ≤ tolerance` on their numeric values rather
than by exact type-and-value equality; in particular `True` against `1`
validates as equal under the default tolerance with no type mismatch
reported. -/
theorem C10_bool_takes_numeric_branch (tol : ℚ) (key : String) (b b2 : Bool) (q : ℚ) :
    isNumeric (.bool b) = true ∧
    cmpVal tol key (.bool b) (.num q) =
      (if |toNum (.bool b) - q| ≤ tol then .ok
       else .numericMismatch key (toNum (.bool b)) q) ∧
    cmpVal tol key (.num q) (.bool b) =
      (if |q - toNum (.bool b)| ≤ tol then .ok
       else .numericMismatch key q (toNum (.bool b))) ∧
    cmpVal tol key (.bool b) (.bool b2) =
      (if |toNum (.bool b) - toNum (.bool b2)| ≤ tol then .ok
       else .numericMismatch key (toNum (.bool b)) (toNum (.bool b2))) ∧
    compareStatesD [("flag", .bool true)] [("flag", .num 1)] = .ok := by
  refine ⟨rfl, ?_, ?_, ?_, ?_⟩
  · have hh := cmpVal_numeric tol key (.bool b) (.num q) rfl rfl
    rw [show toNum (.num q) = q from rfl] at hh
    exact hh
  · have hh := cmpVal_numeric tol key (.num q) (.bool b) rfl rfl
    rw [show toNum (.num q) = q from rfl] at hh
    exact hh
  · exact cmpVal_numeric tol key (.bool b) (.bool b2) rfl rfl
  · simp [compareStatesD, compare_states, keySet, stateKeys, comparePairs,
      List.lookup, cmpVal, isNumeric, toNum, pyAbs, defaultTolerance]
    try norm_num

end LangGraphRS
